import Mathlib

/-!
Verification of the speech-to-text module (src/stt.js) of ProxyAPINode.

The JavaScript source is shallowly embedded: pure string manipulation
becomes functions on `List Char` / `String`, JavaScript values probed by
the result normalizer become an inductive `JSVal`, promise resolution and
rejection become `Except`, and the side effects that matter to the claims
(which backend ran, how many times the recognizer was freed, whether the
event-poll GET was issued) are made explicit in return values.
-/

namespace ProxyAPI

/-! ### JavaScript whitespace and trimming

`String.prototype.trim` and the regex class `\s` strip the same whitespace
set; we model the ASCII members plus NBSP, which covers every character
the claims reason about. -/

def isJsSpace (c : Char) : Bool :=
  c = ' ' || c = '\t' || c = '\n' || c = '\r' || c = '\x0b' || c = '\x0c' || c = '\u00A0'

def trimChars (cs : List Char) : List Char :=
  ((cs.dropWhile isJsSpace).reverse.dropWhile isJsSpace).reverse

def jsTrim (s : String) : String :=
  ⟨trimChars s.data⟩

/-! ### Line splitting

`text.split('\n')` from `callGradio` (src/stt.js:200); `stripSrt` splits on
`/\r?\n/` (src/stt.js:112), but since it trims every line right after, a
trailing carriage return is removed either way, so a `'\n'` split followed
by per-line trimming models both call sites. `''.split` yields `['']`. -/

def splitLines : List Char → List (List Char)
  | [] => [[]]
  | c :: rest =>
    if c = '\n' then [] :: splitLines rest
    else
      match splitLines rest with
      | [] => [[c]]
      | l :: ls => (c :: l) :: ls

/-- `output.join(' ')` (src/stt.js:124). -/
def joinSp : List (List Char) → List Char
  | [] => []
  | l :: ls =>
    match ls with
    | [] => l
    | _ :: _ => l ++ ' ' :: joinSp ls

/-! ### stripSrt (src/stt.js:109-125) -/

/-- The replacement of the leading match of the regex
`/^\d{10,}-\d{6,}\s*/` (src/stt.js:111).  Since `\d` matches neither `-`
nor whitespace, the greedy maximal-munch match coincides with
`takeWhile`. -/
def stripLeadingStamp (cs : List Char) : List Char :=
  let d1 := cs.takeWhile Char.isDigit
  if 10 ≤ d1.length then
    match cs.dropWhile Char.isDigit with
    | '-' :: r2 =>
      if 6 ≤ (r2.takeWhile Char.isDigit).length then
        (r2.dropWhile Char.isDigit).dropWhile isJsSpace
      else cs
    | _ => cs
  else cs

/-- Consume `\d{2}:\d{2}:\d{2},\d{3}` and return the rest. -/
def chompTime : List Char → Option (List Char)
  | a :: b :: ':' :: c :: d :: ':' :: e :: f :: ',' :: g :: h :: i :: rest =>
    if a.isDigit && b.isDigit && c.isDigit && d.isDigit && e.isDigit &&
        f.isDigit && g.isDigit && h.isDigit && i.isDigit then
      some rest
    else none
  | _ => none

/-- The test `/^\d{2}:\d{2}:\d{2},\d{3}\s-->\s\d{2}:\d{2}:\d{2},\d{3}$/`
(src/stt.js:118). -/
def isSrtRangeLine (cs : List Char) : Bool :=
  match chompTime cs with
  | some (w1 :: '-' :: '-' :: '>' :: w2 :: rest) =>
    isJsSpace w1 && isJsSpace w2 && chompTime rest == some []
  | _ => false

def dashesLine : List Char :=
  "------------------------------------".data

/-- A trimmed, nonempty line discarded by `stripSrt`'s loop for being a
subtitle artifact: pure sequence number, SRT time range, or banner
(src/stt.js:117-121). -/
def isArtifactLine (cs : List Char) : Bool :=
  (!cs.isEmpty && cs.all Char.isDigit) || isSrtRangeLine cs ||
    "Done in ".data.isPrefixOf cs || cs == dashesLine

/-- A trimmed line skipped by the loop of `stripSrt`: blank or artifact
(src/stt.js:116-121). -/
def isDroppedLine (cs : List Char) : Bool :=
  cs.isEmpty || isArtifactLine cs

/-- `stripSrt` (src/stt.js:109-125) on character lists. -/
def stripSrtChars (cs : List Char) : List Char :=
  let cleaned := stripLeadingStamp (trimChars cs)
  let kept := ((splitLines cleaned).map trimChars).filter (fun l => !isDroppedLine l)
  trimChars (joinSp kept)

/-- `stripSrt` (src/stt.js:109-125): this is the `cleanSubtitleText`
routine of the specification. -/
def stripSrt (s : String) : String :=
  ⟨stripSrtChars s.data⟩

/-! ### The orchestrator (src/stt.js:315-325)

`transcribeWithWhisperWithFallback` is a try/catch chain.  Each backend's
behaviour on the given input is an `Except` value; the trace records which
backends actually ran (a backend after a successful one is never entered
by the try/catch structure). -/

inductive BackendTag
  | primary
  | batch
  | offline
deriving DecidableEq

/-- `transcribeWithWhisperWithFallback` (src/stt.js:315-325): the value
returned (or the error that escapes) together with the list of backends
invoked, in order. -/
def fallbackRun {ε α : Type} (p b o : Except ε α) : Except ε α × List BackendTag :=
  match p with
  | .ok v => (.ok v, [.primary])
  | .error _ =>
    match b with
    | .ok v => (.ok v, [.primary, .batch])
    | .error _ => (o, [.primary, .batch, .offline])

/-- The specification's "modulo whitespace collapse", at line granularity:
every line trimmed, blank lines dropped, the rest joined by single
spaces. -/
def lineCollapse (s : String) : String :=
  ⟨joinSp (((splitLines s.data).map trimChars).filter (fun l => !l.isEmpty))⟩

/-! ### Model-name and device normalization (src/stt.js:71-77, 213-217) -/

/-- `x || d` for JavaScript strings: the default replaces a missing or
empty (falsy) value. -/
def jsOrStr (o : Option String) (d : String) : String :=
  match o with
  | none => d
  | some s => if s = "" then d else s

def lowerChars (cs : List Char) : List Char :=
  cs.map Char.toLower

/-- `String(x).toLowerCase().trim()` (src/stt.js:73) for ASCII data. -/
def lowerTrim (s : String) : String :=
  ⟨trimChars (lowerChars s.data)⟩

/-- `normalizeWhisperModel` (src/stt.js:71-77); an absent or empty (falsy)
argument is `none` or `some ""`. -/
def normalizeWhisperModel (modelName : Option String) : String :=
  match modelName with
  | none => "base"
  | some s =>
    if s = "" then "base"
    else
      let normalized := lowerTrim s
      if normalized = "mid" then "medium"
      else if normalized = "large_v2" ∨ normalized = "largev2" then "large-v2"
      else normalized

/-- `normalizeGradioDevice` (src/stt.js:213-217). -/
def normalizeGradioDevice (device : Option String) : String :=
  let raw : String := ⟨lowerChars (jsOrStr device "").data⟩
  if raw = "gpu" ∨ raw = "cuda" then "cuda" else "cpu"

/-! ### Offline recognizer adapter (src/stt.js:30-69) -/

structure VoskAlt where
  text : Option String

structure VoskFinal where
  alternatives : List VoskAlt

/-- The value a `transcribeWithVosk` call resolves with: transcript text,
or `false` — the no-speech sentinel (src/stt.js:50-54). -/
inductive VoskOut
  | text (s : String)
  | noSpeech
deriving DecidableEq

/-- How the audio stream of one offline transcription call ends: the `end`
event carrying the outcome of `rec.finalResult()` (which may throw), or an
`error` event (src/stt.js:42-64). -/
inductive VoskEvent (ε : Type)
  | streamEnd (finalResult : Except ε VoskFinal)
  | streamErr (e : ε)

/-- `finalResult?.alternatives?.[0]?.text?.trim() ?? ""` (src/stt.js:47-48). -/
def voskBestText (fr : VoskFinal) : String :=
  match fr.alternatives.head? with
  | some alt =>
    match alt.text with
    | some t => jsTrim t
    | none => ""
  | none => ""

/-- The `end`/`error` handlers of `transcribeWithVosk` (src/stt.js:42-64):
the promise outcome paired with the number of `rec.free()` calls made on
that exit path. -/
def voskFinish {ε : Type} (ev : VoskEvent ε) : Except ε VoskOut × Nat :=
  match ev with
  | .streamEnd (.ok fr) =>
    (if voskBestText fr = ""
      then .ok .noSpeech
      else .ok (.text (voskBestText fr)), 1)
  | .streamEnd (.error e) => (.error e, 1)
  | .streamErr e => (.error e, 1)

/-! ### The remote batch call payload (src/stt.js:244-313) -/

/-- One entry of the positional `data` array sent to the remote batch
service: JSON strings, booleans, numbers (decimal literals as exact
rationals) and the file-reference object list. -/
inductive GVal
  | s (v : String)
  | b (v : Bool)
  | i (v : Int)
  | q (v : ℚ)
  | fileRefs (paths : List String)
deriving DecidableEq

/-- The option fields of `transcribeWithWhisper` that feed the data array
(src/stt.js:244-309); `preText` models `options.prefix`. -/
structure WhisperOptions where
  model : Option String
  device : Option String
  fileFormat : Option String
  language : Option String
  computeType : Option String
  initialPrompt : Option String
  preText : Option String
  maxNewTokens : Option Int
  hallucinationSilenceThreshold : Option Int
  hotwords : Option String

/-- The configuration fields of `config` read while building the payload. -/
structure SttConfig where
  whisperModel : Option String
  whisperDevice : Option String

/-- `normalizeWhisperModel(options.model || config.whisperModel || 'base')`
(src/stt.js:249). -/
def whisperModelArg (opts : WhisperOptions) (cfg : SttConfig) : String :=
  normalizeWhisperModel (some (jsOrStr opts.model (jsOrStr cfg.whisperModel "base")))

/-- `normalizeGradioDevice(options.device || config.whisperDevice || 'cpu')`
(src/stt.js:250). -/
def gradioDeviceArg (opts : WhisperOptions) (cfg : SttConfig) : String :=
  normalizeGradioDevice (some (jsOrStr opts.device (jsOrStr cfg.whisperDevice "cpu")))

/-- The positional `data` array built by `transcribeWithWhisper`
(src/stt.js:254-309), entry by entry in source order. -/
def whisperData (opts : WhisperOptions) (cfg : SttConfig) (uploadPath : String) :
    List GVal :=
  [GVal.fileRefs [uploadPath],
   GVal.s "",
   GVal.b false,
   GVal.b true,
   GVal.s (jsOrStr opts.fileFormat "txt"),
   GVal.b false,
   GVal.s (whisperModelArg opts cfg),
   GVal.s (jsOrStr opts.language "Automatic Detection"),
   GVal.b false,
   GVal.i 5,
   GVal.i (-1),
   GVal.q (6/10),
   GVal.s (jsOrStr opts.computeType "float16"),
   GVal.i 5,
   GVal.i 1,
   GVal.b true,
   GVal.q (1/2),
   GVal.s (jsOrStr opts.initialPrompt ""),
   GVal.i 0,
   GVal.q (24/10),
   GVal.i 1,
   GVal.i 1,
   GVal.i 0,
   GVal.s (jsOrStr opts.preText ""),
   GVal.b true,
   GVal.s "[-1]",
   GVal.i 1,
   GVal.b false,
   GVal.s "\"\x27([\x7b-",
   GVal.s "\"\x27.!?:)]\x7d",
   GVal.i (opts.maxNewTokens.getD 3),
   GVal.i 30,
   GVal.i (opts.hallucinationSilenceThreshold.getD 3),
   GVal.s (jsOrStr opts.hotwords ""),
   GVal.q (1/2),
   GVal.i 1,
   GVal.i 24,
   GVal.b true,
   GVal.b false,
   GVal.q (1/2),
   GVal.i 250,
   GVal.i 9999,
   GVal.i 1000,
   GVal.i 2000,
   GVal.b false,
   GVal.s (gradioDeviceArg opts cfg),
   GVal.s "",
   GVal.b true,
   GVal.b false,
   GVal.s "UVR-MDX-NET-Inst_HQ_4",
   GVal.s (gradioDeviceArg opts cfg),
   GVal.i 256,
   GVal.b false,
   GVal.b true]

/-! ### JavaScript values as probed by the result normalizer -/

/-- The JavaScript values the result normalizer and the call step probe:
undefined, null, booleans, (integer) numbers, strings, arrays and plain
objects. -/
inductive JSVal
  | undefined
  | jsNull
  | bool (b : Bool)
  | num (n : Int)
  | str (s : String)
  | arr (xs : List JSVal)
  | obj (fields : List (String × JSVal))

/-- JavaScript truthiness. -/
def truthy : JSVal → Bool
  | .undefined => false
  | .jsNull => false
  | .bool b => b
  | .num n => !(n == 0)
  | .str s => !(s == "")
  | .arr _ => true
  | .obj _ => true

/-- Property access `v[k]`: `undefined` on non-objects and missing keys. -/
def getField (v : JSVal) (k : String) : JSVal :=
  match v with
  | .obj fields => (fields.lookup k).getD .undefined
  | _ => .undefined

def isArray : JSVal → Bool
  | .arr _ => true
  | _ => false

def isString : JSVal → Bool
  | .str _ => true
  | _ => false

/-- `typeof v === 'object'`: true for arrays, plain objects and null. -/
def isObjectType : JSVal → Bool
  | .arr _ => true
  | .obj _ => true
  | .jsNull => true
  | _ => false

/-- Index access `v[i]` on arrays; `undefined` otherwise. -/
def jsIndex (v : JSVal) (i : Nat) : JSVal :=
  match v with
  | .arr xs => xs.getD i .undefined
  | _ => .undefined

/-- `v ?? d` (nullish coalescing). -/
def nullishD (v : JSVal) (d : JSVal) : JSVal :=
  match v with
  | .undefined => d
  | .jsNull => d
  | x => x

/-- The string payload of a string value. -/
def strVal : JSVal → String
  | .str s => s
  | _ => ""

mutual

/-- `String(v)`: JavaScript string conversion. -/
def jsToString : JSVal → String
  | .undefined => "undefined"
  | .jsNull => "null"
  | .bool true => "true"
  | .bool false => "false"
  | .num n => toString n
  | .str s => s
  | .arr xs => String.intercalate "," (jsToStringItems xs)
  | .obj _ => "[object Object]"

/-- `Array.prototype.toString` items: null and undefined render empty. -/
def jsToStringItems : List JSVal → List String
  | [] => []
  | .undefined :: xs => "" :: jsToStringItems xs
  | .jsNull :: xs => "" :: jsToStringItems xs
  | x :: xs => jsToString x :: jsToStringItems xs

end

/-- `extractWhisperText` (src/stt.js:79-107).  The filesystem is passed in
as a partial map from paths to file contents (`fs.existsSync` is
`(fsys p).isSome`, `fs.readFileSync` its value). -/
def extractWhisperText (fsys : String → Option String) (result : JSVal) : String :=
  if !truthy result then ""
  else if isArray result then
    let first := jsIndex result 0
    if truthy first && isObjectType first && isString (getField first "text") then
      jsTrim (strVal (getField first "text"))
    else jsTrim (jsToString (nullishD first (.str "")))
  else if truthy (getField result "data") && isArray (getField result "data") then
    jsTrim (jsToString (nullishD (jsIndex (getField result "data") 0) (.str "")))
  else if truthy (getField result "data") &&
      truthy (getField (getField result "data") "data") &&
      isArray (getField (getField result "data") "data") then
    jsTrim (jsToString
      (nullishD (jsIndex (getField (getField result "data") "data") 0) (.str "")))
  else if isString result then
    match fsys (strVal result) with
    | some contents => jsTrim contents
    | none => jsTrim (strVal result)
  else if isString (getField result "text") then
    jsTrim (strVal (getField result "text"))
  else if isString (getField result "transcription") then
    jsTrim (strVal (getField result "transcription"))
  else if truthy (getField result "data") &&
      isString (getField (getField result "data") "text") then
    jsTrim (strVal (getField (getField result "data") "text"))
  else if isString (getField result "outputPath") &&
      (fsys (strVal (getField result "outputPath"))).isSome then
    jsTrim ((fsys (strVal (getField result "outputPath"))).getD "")
  else ""

/-! ### The event-id step of callGradio (src/stt.js:188-195) -/

/-- `a || b` on JavaScript values. -/
def jsOr (a b : JSVal) : JSVal :=
  if truthy a then a else b

/-- `result.event_id || result.eventId || result.id` (src/stt.js:189). -/
def selectEventId (resp : JSVal) : JSVal :=
  jsOr (jsOr (getField resp "event_id") (getField resp "eventId"))
    (getField resp "id")

/-- The event-id handling of `callGradio` (src/stt.js:188-195): either the
missing-event-id error, thrown before the event-poll GET is issued, or the
id string interpolated into the poll URL (`ok` means the GET is issued). -/
def gradioEventIdStep (resp : JSVal) : Except String String :=
  let eventId := selectEventId resp
  if !truthy eventId then Except.error "Gradio call returned no event id."
  else Except.ok (jsToString eventId)

/-! ### Upload filename and MIME type (src/stt.js:144-164) -/

/-- `path.basename` for POSIX paths: drop trailing slashes, then take the
part after the last slash. -/
def basenameChars (cs : List Char) : List Char :=
  let stripped := (cs.reverse.dropWhile (fun c => c = '/')).reverse
  (stripped.reverse.takeWhile (fun c => !(c = '/'))).reverse

/-- `path.extname` on a base name: the suffix from the last dot; empty
when there is no dot, when the only dot leads a hidden file, or for the
special name `".."`. -/
def extnameOfBase (cs : List Char) : List Char :=
  if cs = "..".data then []
  else
    let tail := cs.reverse.takeWhile (fun c => !(c = '.'))
    if cs.length ≤ tail.length + 1 then []
    else '.' :: tail.reverse

/-- `getMimeType` (src/stt.js:144-153). -/
def getMimeType (fileName : String) : String :=
  let ext : String := ⟨lowerChars (extnameOfBase (basenameChars fileName.data))⟩
  if ext = ".wav" then "audio/wav"
  else if ext = ".mp3" then "audio/mpeg"
  else if ext = ".ogg" then "audio/ogg"
  else if ext = ".flac" then "audio/flac"
  else if ext = ".m4a" then "audio/mp4"
  else if ext = ".aac" then "audio/aac"
  else "application/octet-stream"

/-- The filename and MIME type placed in the multipart form by
`uploadToGradio` (src/stt.js:155-164), as a function of the resolved
path's base name. -/
def uploadNameAndMime (baseName : String) : String × String :=
  let ext : String := ⟨lowerChars (extnameOfBase baseName.data)⟩
  let name := if ext = "" then baseName ++ ".wav" else baseName
  (name, getMimeType name)

/-! ### A model of JSON.parse for the event payload -/

inductive Json
  | null
  | bool (b : Bool)
  | num (q : ℚ)
  | str (s : String)
  | arr (xs : List Json)
  | obj (fields : List (String × Json))

def skipWs (cs : List Char) : List Char :=
  cs.dropWhile (fun c => c = ' ' || c = '\t' || c = '\n' || c = '\r')

/-- Parse the remainder of a JSON string literal (after the opening
quote); `\uXXXX` escapes are outside the model and fail. -/
def parseStringBody : Nat → List Char → Option (String × List Char)
  | 0, _ => none
  | _ + 1, [] => none
  | fuel + 1, c :: rest =>
    if c = '"' then some ("", rest)
    else if c = '\\' then
      match rest with
      | [] => none
      | e :: rest2 =>
        let esc : Option Char :=
          if e = '"' then some '"'
          else if e = '\\' then some '\\'
          else if e = '/' then some '/'
          else if e = 'b' then some '\x08'
          else if e = 'f' then some '\x0c'
          else if e = 'n' then some '\n'
          else if e = 'r' then some '\r'
          else if e = 't' then some '\t'
          else none
        match esc with
        | none => none
        | some ch =>
          match parseStringBody fuel rest2 with
          | some (s, r) => some (⟨ch :: s.data⟩, r)
          | none => none
    else
      match parseStringBody fuel rest with
      | some (s, r) => some (⟨c :: s.data⟩, r)
      | none => none

def digitsToNat (ds : List Char) : Nat :=
  ds.foldl (fun acc c => acc * 10 + (c.toNat - 48)) 0

/-- Parse a JSON number (sign, integer part without leading zeros,
optional fraction, optional exponent) as an exact rational. -/
def parseNumber (cs : List Char) : Option (ℚ × List Char) :=
  let negp : Bool := match cs with | '-' :: _ => true | _ => false
  let cs1 := match cs with | '-' :: r => r | _ => cs
  let ds := cs1.takeWhile Char.isDigit
  let r1 := cs1.dropWhile Char.isDigit
  if ds.isEmpty then none
  else if 2 ≤ ds.length ∧ ds.headD '1' = '0' then none
  else
    let step2 : Option (ℚ × List Char) :=
      match r1 with
      | '.' :: rf =>
        let fs := rf.takeWhile Char.isDigit
        if fs.isEmpty then none
        else some ((digitsToNat ds : ℚ) + (digitsToNat fs : ℚ) / ((10 : ℚ) ^ fs.length),
          rf.dropWhile Char.isDigit)
      | _ => some ((digitsToNat ds : ℚ), r1)
    match step2 with
    | none => none
    | some (v, r2) =>
      let step3 : Option (ℚ × List Char) :=
        match r2 with
        | e :: re =>
          if e = 'e' ∨ e = 'E' then
            let esign : Bool := match re with | '-' :: _ => true | _ => false
            let re1 := match re with | '-' :: r => r | '+' :: r => r | _ => re
            let es := re1.takeWhile Char.isDigit
            if es.isEmpty then none
            else
              some (if esign then v / (10 : ℚ) ^ digitsToNat es
                else v * (10 : ℚ) ^ digitsToNat es, re1.dropWhile Char.isDigit)
          else some (v, r2)
        | [] => some (v, r2)
      match step3 with
      | none => none
      | some (v2, r3) => some (if negp then -v2 else v2, r3)

mutual

/-- Parse one JSON value; the fuel bounds nesting and is at least the
input length at top level. -/
def parseJsonVal : Nat → List Char → Option (Json × List Char)
  | 0, _ => none
  | fuel + 1, cs0 =>
    let cs := skipWs cs0
    match cs with
    | [] => none
    | c :: rest =>
      if c = '"' then
        match parseStringBody (rest.length + 1) rest with
        | some (s, r) => some (.str s, r)
        | none => none
      else if c = '[' then
        match skipWs rest with
        | ']' :: r => some (.arr [], r)
        | _ =>
          match parseJsonItems fuel rest with
          | some (xs, r) => some (.arr xs, r)
          | none => none
      else if c = '\x7b' then
        match skipWs rest with
        | '\x7d' :: r => some (.obj [], r)
        | _ =>
          match parseJsonMembers fuel rest with
          | some (fs, r) => some (.obj fs, r)
          | none => none
      else if c = 't' ∨ c = 'f' ∨ c = 'n' then
        if cs.take 4 = "true".data then some (.bool true, cs.drop 4)
        else if cs.take 5 = "false".data then some (.bool false, cs.drop 5)
        else if cs.take 4 = "null".data then some (.null, cs.drop 4)
        else none
      else
        match parseNumber cs with
        | some (q, r) => some (.num q, r)
        | none => none

/-- Parse the comma-separated items of a nonempty array up to `]`. -/
def parseJsonItems : Nat → List Char → Option (List Json × List Char)
  | 0, _ => none
  | fuel + 1, cs =>
    match parseJsonVal fuel cs with
    | none => none
    | some (v, r) =>
      match skipWs r with
      | ',' :: rr =>
        match parseJsonItems fuel rr with
        | some (xs, rf) => some (v :: xs, rf)
        | none => none
      | ']' :: rr => some ([v], rr)
      | _ => none

/-- Parse the members of a nonempty object up to the closing brace. -/
def parseJsonMembers : Nat → List Char → Option (List (String × Json) × List Char)
  | 0, _ => none
  | fuel + 1, cs =>
    match skipWs cs with
    | '"' :: rest =>
      match parseStringBody (rest.length + 1) rest with
      | none => none
      | some (k, r) =>
        match skipWs r with
        | ':' :: rv =>
          match parseJsonVal fuel rv with
          | none => none
          | some (v, rr) =>
            match skipWs rr with
            | ',' :: rm =>
              match parseJsonMembers fuel rm with
              | some (fs, rf) => some ((k, v) :: fs, rf)
              | none => none
            | '\x7d' :: rf => some ([(k, v)], rf)
            | _ => none
        | _ => none
    | _ => none

end

/-- The model of `JSON.parse`: a complete parse of the whole text, with
trailing whitespace allowed; anything else is a parse error. -/
def jsonParse (s : String) : Option Json :=
  match parseJsonVal (s.length + 1) s.data with
  | some (v, r) => if skipWs r = [] then some v else none
  | none => none

/-! ### The event-poll step of callGradio (src/stt.js:194-211) -/

inductive EventPayload
  | json (v : Json)
  | raw (s : String)

/-- The poll body's lines: split on newline, trimmed, blanks dropped
(src/stt.js:200). -/
def eventLines (body : String) : List (List Char) :=
  ((splitLines body.data).map trimChars).filter (fun l => !l.isEmpty)

/-- The lines starting with `data:` (src/stt.js:201). -/
def eventDataLines (body : String) : List (List Char) :=
  (eventLines body).filter (fun l => "data:".data.isPrefixOf l)

/-- `JSON.parse(lastData)` with the raw-trimmed-string fallback
(src/stt.js:205-210). -/
def parsePayload (lastData : String) : EventPayload :=
  match jsonParse lastData with
  | some v => .json v
  | none => .raw lastData

/-- The event-poll body handling of `callGradio` (src/stt.js:199-211):
keep only `data:` lines, fail when there are none, otherwise strip the
prefix from the last one, trim it, and JSON-parse it when possible. -/
def processEventBody (body : String) : Except String EventPayload :=
  match (eventDataLines body).getLast? with
  | none => .error "Gradio event returned no data."
  | some last => .ok (parsePayload ⟨trimChars (last.drop 5)⟩)

/-! ### Lemmas about trimming, line splitting and joining -/

theorem dropWhile_head?_false (p : Char → Bool) (l : List Char) :
    ∀ c ∈ (l.dropWhile p).head?, p c = false := by
  intro c hc
  have h := List.head?_dropWhile_not p l
  rw [Option.mem_def] at hc
  rw [hc] at h
  exact h

theorem dropWhile_eq_self_of {p : Char → Bool} {l : List Char}
    (h : ∀ c ∈ l.head?, p c = false) : l.dropWhile p = l := by
  cases l with
  | nil => rfl
  | cons c t =>
    exact List.dropWhile_cons_of_neg (by simp [h c rfl])

theorem trimChars_eq_self {z : List Char}
    (h1 : ∀ c ∈ z.head?, isJsSpace c = false)
    (h2 : ∀ c ∈ z.getLast?, isJsSpace c = false) : trimChars z = z := by
  unfold trimChars
  rw [dropWhile_eq_self_of h1]
  rw [dropWhile_eq_self_of (by rw [List.head?_reverse]; exact h2)]
  exact z.reverse_reverse

theorem trimChars_head?_false (z : List Char) :
    ∀ c ∈ (trimChars z).head?, isJsSpace c = false := by
  intro c hc
  unfold trimChars at hc
  rw [List.head?_reverse, Option.mem_def] at hc
  obtain ⟨t, ht⟩ := List.dropWhile_suffix (l := (z.dropWhile isJsSpace).reverse) isJsSpace
  have : (z.dropWhile isJsSpace).reverse.getLast? = some c := by
    rw [← ht, List.getLast?_append, hc]
    rfl
  rw [List.getLast?_reverse] at this
  exact dropWhile_head?_false isJsSpace z c this

theorem trimChars_getLast?_false (z : List Char) :
    ∀ c ∈ (trimChars z).getLast?, isJsSpace c = false := by
  intro c hc
  unfold trimChars at hc
  rw [List.getLast?_reverse] at hc
  exact dropWhile_head?_false _ _ c hc

theorem trimChars_idem (z : List Char) : trimChars (trimChars z) = trimChars z :=
  trimChars_eq_self (trimChars_head?_false z) (trimChars_getLast?_false z)

theorem mem_of_mem_trimChars {c : Char} {z : List Char} (h : c ∈ trimChars z) :
    c ∈ z := by
  unfold trimChars at h
  rw [List.mem_reverse] at h
  have h2 := (List.dropWhile_suffix isJsSpace).subset h
  rw [List.mem_reverse] at h2
  exact (List.dropWhile_suffix isJsSpace).subset h2

theorem splitLines_ne_nil (cs : List Char) : splitLines cs ≠ [] := by
  induction cs with
  | nil => simp [splitLines]
  | cons c rest ih =>
    unfold splitLines
    by_cases h : c = '\n'
    · simp [h]
    · simp only [if_neg h]
      cases hr : splitLines rest <;> simp

theorem splitLines_no_newline {cs : List Char} (h : '\n' ∉ cs) :
    splitLines cs = [cs] := by
  induction cs with
  | nil => rfl
  | cons c rest ih =>
    have hc : ¬(c = '\n') := fun e => h (e ▸ List.mem_cons_self c rest)
    have hrest : '\n' ∉ rest := fun m => h (List.mem_cons_of_mem _ m)
    unfold splitLines
    rw [if_neg hc, ih hrest]

theorem splitLines_pieces {cs l : List Char} (hl : l ∈ splitLines cs) :
    '\n' ∉ l := by
  induction cs generalizing l with
  | nil =>
    simp [splitLines] at hl
    subst hl
    simp
  | cons c rest ih =>
    unfold splitLines at hl
    by_cases h : c = '\n'
    · rw [if_pos h] at hl
      rcases List.mem_cons.mp hl with h1 | h1
      · subst h1; simp
      · exact ih h1
    · rw [if_neg h] at hl
      cases hr : splitLines rest with
      | nil => exact absurd hr (splitLines_ne_nil rest)
      | cons a as =>
        rw [hr] at hl
        rcases List.mem_cons.mp hl with h1 | h1
        · subst h1
          intro hmem
          rcases List.mem_cons.mp hmem with h2 | h2
          · exact h h2.symm
          · exact ih (hr ▸ List.mem_cons_self a as) h2
        · exact ih (hr ▸ List.mem_cons_of_mem a h1)

theorem mem_joinSp {c : Char} :
    ∀ {ls : List (List Char)}, c ∈ joinSp ls → c = ' ' ∨ ∃ l ∈ ls, c ∈ l := by
  intro ls
  induction ls with
  | nil => intro h; simp [joinSp] at h
  | cons l ls' ih =>
    intro h
    cases ls' with
    | nil =>
      right
      exact ⟨l, List.mem_cons_self _ _, h⟩
    | cons l2 ls'' =>
      simp only [joinSp] at h
      rcases List.mem_append.mp h with h1 | h1
      · right; exact ⟨l, List.mem_cons_self _ _, h1⟩
      · rcases List.mem_cons.mp h1 with h2 | h2
        · left; exact h2
        · rcases ih h2 with h3 | ⟨l3, hl3, hcl3⟩
          · left; exact h3
          · right; exact ⟨l3, List.mem_cons_of_mem _ hl3, hcl3⟩

theorem joinSp_ne_nil {ls : List (List Char)} (hne : ls ≠ [])
    (h : ∀ l ∈ ls, l ≠ []) : joinSp ls ≠ [] := by
  cases ls with
  | nil => exact absurd rfl hne
  | cons l ls' =>
    cases ls' with
    | nil => exact h l (List.mem_cons_self _ _)
    | cons l2 ls'' =>
      simp only [joinSp]
      intro he
      rcases List.append_eq_nil.mp he with ⟨-, h2⟩
      exact List.cons_ne_nil _ _ h2

theorem trimChars_joinSp {ls : List (List Char)}
    (h : ∀ l ∈ ls, trimChars l = l ∧ l ≠ []) :
    trimChars (joinSp ls) = joinSp ls := by
  apply trimChars_eq_self
  · intro c hc
    cases ls with
    | nil => simp [joinSp] at hc
    | cons l ls' =>
      obtain ⟨hfix, hne⟩ := h l (List.mem_cons_self _ _)
      have hhead : (joinSp (l :: ls')).head? = l.head? := by
        cases ls' with
        | nil => rfl
        | cons l2 ls'' =>
          cases l with
          | nil => exact absurd rfl hne
          | cons a t => rfl
      rw [hhead] at hc
      exact trimChars_head?_false l c (hfix.symm ▸ hc)
  · intro c hc
    induction ls with
    | nil => simp [joinSp] at hc
    | cons l ls' ih =>
      cases ls' with
      | nil =>
        obtain ⟨hfix, -⟩ := h l (List.mem_cons_self _ _)
        exact trimChars_getLast?_false l c (hfix.symm ▸ hc)
      | cons l2 ls'' =>
        rw [Option.mem_def,
          show joinSp (l :: l2 :: ls'') = l ++ ' ' :: joinSp (l2 :: ls'') from rfl,
          List.getLast?_append] at hc
        have hj : joinSp (l2 :: ls'') ≠ [] := by
          apply joinSp_ne_nil (List.cons_ne_nil _ _)
          intro x hx
          exact (h x (List.mem_cons_of_mem _ hx)).2
        obtain ⟨d, hd⟩ := Option.ne_none_iff_exists'.mp
          (mt List.getLast?_eq_none_iff.mp hj)
        have hlast : (' ' :: joinSp (l2 :: ls'')).getLast? = some d := by
          rw [show (' ' :: joinSp (l2 :: ls'')) = [' '] ++ joinSp (l2 :: ls'') from rfl,
            List.getLast?_append, hd]
          rfl
        rw [hlast] at hc
        simp only [Option.or_some] at hc
        apply ih (fun x hx => h x (List.mem_cons_of_mem _ hx))
        rw [Option.mem_def, hd]
        cases hc
        exact congrArg some rfl

theorem stripSrtChars_trim_fixed (cs : List Char) :
    trimChars (stripSrtChars cs) = stripSrtChars cs := by
  simp only [stripSrtChars]
  exact trimChars_idem _

theorem stripSrtChars_no_newline (cs : List Char) : '\n' ∉ stripSrtChars cs := by
  intro hmem
  simp only [stripSrtChars] at hmem
  have h1 := mem_of_mem_trimChars hmem
  rcases mem_joinSp h1 with hsp | ⟨l, hl, hcl⟩
  · exact absurd hsp (by decide)
  · have hl2 := List.mem_filter.mp hl
    obtain ⟨l0, hl0, rfl⟩ := List.mem_map.mp hl2.1
    exact splitLines_pieces hl0 (mem_of_mem_trimChars hcl)

/-- Fixed-point lemma for `stripSrt`: a trimmed, single-line string that
does not match the leading-stamp regex and is not itself a dropped line is
returned unchanged. -/
theorem stripSrtChars_fixed {y : List Char}
    (htrim : trimChars y = y) (hnl : '\n' ∉ y)
    (hstamp : stripLeadingStamp y = y)
    (hdrop : y = [] ∨ isDroppedLine y = false) :
    stripSrtChars y = y := by
  rcases hdrop with rfl | hdrop
  · rfl
  · simp only [stripSrtChars]
    rw [htrim, hstamp, splitLines_no_newline hnl]
    have hkept : (List.map trimChars [y]).filter (fun l => !isDroppedLine l) = [y] := by
      simp [htrim, hdrop]
    rw [hkept]
    show trimChars (joinSp [y]) = y
    rw [show joinSp [y] = y from rfl, htrim]

theorem takeWhile_eq_self_of {p : Char → Bool} :
    ∀ {l : List Char}, (∀ c ∈ l, p c = true) → l.takeWhile p = l := by
  intro l
  induction l with
  | nil => intro _; rfl
  | cons c t ih =>
    intro h
    rw [List.takeWhile_cons, if_pos (h c (List.mem_cons_self c t)),
      ih (fun x hx => h x (List.mem_cons_of_mem c hx))]

theorem basenameChars_eq_self {cs : List Char} (h : '/' ∉ cs) :
    basenameChars cs = cs := by
  unfold basenameChars
  have hdrop : cs.reverse.dropWhile (fun c => c = '/') = cs.reverse := by
    apply dropWhile_eq_self_of
    intro c hc
    rw [Option.mem_def] at hc
    have hmem : c ∈ cs.reverse := List.mem_of_mem_head? hc
    rw [List.mem_reverse] at hmem
    exact decide_eq_false (fun he => h (he ▸ hmem))
  rw [hdrop, List.reverse_reverse]
  show (List.takeWhile (fun c => !(c = '/')) cs.reverse).reverse = cs
  have htake : List.takeWhile (fun c => !(c = '/')) cs.reverse = cs.reverse := by
    apply takeWhile_eq_self_of
    intro c hc
    rw [List.mem_reverse] at hc
    simp only [Bool.not_eq_true']
    exact decide_eq_false (fun he => h (he ▸ hc))
  rw [htake, List.reverse_reverse]

theorem extname_append_wav {b : List Char} (hb : ¬b = []) :
    extnameOfBase (b ++ ".wav".data) = ".wav".data := by
  unfold extnameOfBase
  rw [if_neg ?hne]
  case hne =>
    intro he
    have hl := congrArg List.length he
    simp at hl
  have hrev : (b ++ ".wav".data).reverse = 'v' :: 'a' :: 'w' :: '.' :: b.reverse := by
    rw [List.reverse_append]
    rfl
  rw [hrev]
  have htake : List.takeWhile (fun c => !(c = '.'))
      ('v' :: 'a' :: 'w' :: '.' :: b.reverse) = ['v', 'a', 'w'] := by
    simp [List.takeWhile_cons]
  rw [htake]
  have hlen : ¬(b ++ ".wav".data).length ≤ ([ 'v', 'a', 'w'] : List Char).length + 1 := by
    have hpos : 0 < b.length := List.length_pos.mpr hb
    simp only [List.length_append, show (".wav".data).length = 4 from rfl,
      List.length_cons, List.length_nil]
    omega
  rw [if_neg hlen]
  rfl

/-! ### Lemmas about ASCII lowercasing -/

theorem char_eq_iff_toNat (c d : Char) : c = d ↔ c.toNat = d.toNat := by
  constructor
  · intro h; rw [h]
  · intro h
    have h2 := Char.ofNat_toNat c
    rw [h, Char.ofNat_toNat d] at h2
    exact h2.symm

theorem char_toNat_ofNat {n : ℕ} (h : Nat.isValidChar n) : (Char.ofNat n).toNat = n := by
  simp [Char.ofNat, h, Char.ofNatAux, Char.toNat, UInt32.toNat]

theorem char_toLower_toNat (c : Char) :
    (Char.toLower c).toNat =
      if c.toNat ≥ 65 ∧ c.toNat ≤ 90 then c.toNat + 32 else c.toNat := by
  unfold Char.toLower
  by_cases h : c.toNat ≥ 65 ∧ c.toNat ≤ 90
  · rw [if_pos h, if_pos h]
    exact char_toNat_ofNat (Or.inl (by omega))
  · rw [if_neg h, if_neg h]

theorem char_toLower_eq_self (c : Char) (h : ¬(c.toNat ≥ 65 ∧ c.toNat ≤ 90)) :
    Char.toLower c = c := by
  unfold Char.toLower
  rw [if_neg h]

theorem char_toLower_idem (c : Char) :
    Char.toLower (Char.toLower c) = Char.toLower c := by
  by_cases h : c.toNat ≥ 65 ∧ c.toNat ≤ 90
  · apply char_toLower_eq_self
    rw [char_toLower_toNat, if_pos h]
    omega
  · rw [char_toLower_eq_self c h]
    exact char_toLower_eq_self c h

theorem isJsSpace_toNat (c : Char) :
    isJsSpace c = decide (c.toNat = 32 ∨ c.toNat = 9 ∨ c.toNat = 10 ∨ c.toNat = 13 ∨
      c.toNat = 11 ∨ c.toNat = 12 ∨ c.toNat = 160) := by
  unfold isJsSpace
  rw [show decide (c = ' ') = decide (c.toNat = 32) from
      decide_eq_decide.mpr (char_eq_iff_toNat c ' '),
    show decide (c = '\t') = decide (c.toNat = 9) from
      decide_eq_decide.mpr (char_eq_iff_toNat c '\t'),
    show decide (c = '\n') = decide (c.toNat = 10) from
      decide_eq_decide.mpr (char_eq_iff_toNat c '\n'),
    show decide (c = '\r') = decide (c.toNat = 13) from
      decide_eq_decide.mpr (char_eq_iff_toNat c '\r'),
    show decide (c = '\x0b') = decide (c.toNat = 11) from
      decide_eq_decide.mpr (char_eq_iff_toNat c '\x0b'),
    show decide (c = '\x0c') = decide (c.toNat = 12) from
      decide_eq_decide.mpr (char_eq_iff_toNat c '\x0c'),
    show decide (c = ' ') = decide (c.toNat = 160) from
      decide_eq_decide.mpr (char_eq_iff_toNat c ' ')]
  simp [Bool.decide_or, Bool.or_assoc]

theorem isJsSpace_toLower (c : Char) : isJsSpace (Char.toLower c) = isJsSpace c := by
  by_cases h : c.toNat ≥ 65 ∧ c.toNat ≤ 90
  · have h1 : (Char.toLower c).toNat = c.toNat + 32 := by
      rw [char_toLower_toNat, if_pos h]
    rw [isJsSpace_toNat, isJsSpace_toNat c, h1]
    have hx : ¬(c.toNat + 32 = 32 ∨ c.toNat + 32 = 9 ∨ c.toNat + 32 = 10 ∨
        c.toNat + 32 = 13 ∨ c.toNat + 32 = 11 ∨ c.toNat + 32 = 12 ∨
        c.toNat + 32 = 160) := by omega
    have hy : ¬(c.toNat = 32 ∨ c.toNat = 9 ∨ c.toNat = 10 ∨ c.toNat = 13 ∨
        c.toNat = 11 ∨ c.toNat = 12 ∨ c.toNat = 160) := by omega
    rw [decide_eq_false hx, decide_eq_false hy]
  · rw [char_toLower_eq_self c h]

theorem trimChars_map_toLower (l : List Char) :
    trimChars (l.map Char.toLower) = (trimChars l).map Char.toLower := by
  have hp : (isJsSpace ∘ Char.toLower) = isJsSpace := funext isJsSpace_toLower
  unfold trimChars
  rw [List.dropWhile_map, hp, ← List.map_reverse, List.dropWhile_map, hp,
    ← List.map_reverse]

theorem lowerTrim_idem (s : String) : lowerTrim (lowerTrim s) = lowerTrim s := by
  show (⟨trimChars (lowerChars (trimChars (lowerChars s.data)))⟩ : String) =
    ⟨trimChars (lowerChars s.data)⟩
  unfold lowerChars
  rw [← trimChars_map_toLower, List.map_map,
    show (Char.toLower ∘ Char.toLower) = Char.toLower from funext char_toLower_idem,
    trimChars_idem]

/-! ### Theorems for the claims about the orchestrator and subtitle cleanup -/

/-- C1: the orchestrator tries the backends strictly in order Primary,
Remote Batch, Offline.  A Primary success is returned and neither other
backend is invoked; on a Primary error a Batch success is returned and
Offline is not invoked; if both throw, the Offline outcome (value or
error) is returned, so only the Offline backend's error can reach the
caller. -/
theorem fallback_tries_in_order {ε α : Type} (p b o : Except ε α) :
    (∀ v, p = .ok v → fallbackRun p b o = (.ok v, [.primary])) ∧
    (∀ e v, p = .error e → b = .ok v →
      fallbackRun p b o = (.ok v, [.primary, .batch])) ∧
    (∀ e e', p = .error e → b = .error e' →
      fallbackRun p b o = (o, [.primary, .batch, .offline])) ∧
    (∀ e, (fallbackRun p b o).1 = .error e → o = .error e) := by
  refine ⟨?_, ?_, ?_, ?_⟩ <;>
    cases p <;> cases b <;> simp [fallbackRun] <;> intros <;> simp_all

/-- Witness for C1 at concrete inputs: both remote backends fail and the
offline result is returned after all three ran. -/
theorem fallback_tries_in_order_witness :
    fallbackRun (Except.error "p down") (Except.error "b down")
        (Except.ok "hello") =
      (Except.ok "hello", [BackendTag.primary, BackendTag.batch, BackendTag.offline]) :=
  (fallback_tries_in_order (Except.error "p down") (Except.error "b down")
    (Except.ok "hello")).2.2.1 "p down" "b down" rfl rfl

/-- C3 counterexample: `cleanSubtitleText` is not idempotent.  On
`"42\n12345678901-123456x"` the first pass drops the line `42` and keeps
`12345678901-123456x`; the second pass then strips that string's leading
digits-dash-digits run, yielding `"x"`. -/
theorem stripSrt_not_idempotent_cex :
    stripSrt (stripSrt "42\n12345678901-123456x") ≠
      stripSrt "42\n12345678901-123456x" := by
  decide

/-- C3 (amended): `cleanSubtitleText` is idempotent on every input whose
cleaned output neither matches the leading numeric-stamp pattern nor is
itself a dropped (digits-only / timestamp-range / banner) line; and a
trimmed sentence with no leading numeric stamp and no artifact lines is
returned unchanged modulo whitespace collapse (lines trimmed, blank lines
dropped, joined by single spaces). -/
theorem stripSrt_conditional_idem :
    (∀ x : String,
      stripLeadingStamp (stripSrt x).data = (stripSrt x).data →
      (stripSrt x = "" ∨ isDroppedLine (stripSrt x).data = false) →
      stripSrt (stripSrt x) = stripSrt x) ∧
    (∀ s : String,
      trimChars s.data = s.data →
      stripLeadingStamp s.data = s.data →
      (∀ l ∈ splitLines s.data, isArtifactLine (trimChars l) = false) →
      stripSrt s = lineCollapse s) := by
  constructor
  · intro x hstamp hdrop
    show (⟨stripSrtChars (stripSrt x).data⟩ : String) = stripSrt x
    have hy : stripSrtChars (stripSrt x).data = (stripSrt x).data := by
      apply stripSrtChars_fixed
      · exact stripSrtChars_trim_fixed x.data
      · exact stripSrtChars_no_newline x.data
      · exact hstamp
      · rcases hdrop with h | h
        · left
          rw [h]
        · right
          exact h
    rw [hy]
  · intro s htrim hstamp hart
    show (⟨stripSrtChars s.data⟩ : String) = lineCollapse s
    simp only [stripSrtChars, lineCollapse]
    rw [htrim, hstamp]
    have hfilter :
        ((splitLines s.data).map trimChars).filter (fun l => !isDroppedLine l) =
          ((splitLines s.data).map trimChars).filter (fun l => !l.isEmpty) := by
      apply List.filter_congr
      intro l hl
      obtain ⟨l0, hl0, rfl⟩ := List.mem_map.mp hl
      simp only [isDroppedLine, hart l0 hl0, Bool.or_false]
    rw [hfilter]
    congr 1
    apply trimChars_joinSp
    intro l hl
    have hl2 := List.mem_filter.mp hl
    obtain ⟨l0, hl0, rfl⟩ := List.mem_map.mp hl2.1
    refine ⟨trimChars_idem l0, ?_⟩
    intro he
    rw [he] at hl2
    simp at hl2

/-- Witness for C3 (amended) at a concrete input. -/
theorem stripSrt_conditional_idem_witness :
    stripSrt (stripSrt "hello  world") = stripSrt "hello  world" ∧
    stripSrt "hello  world" = lineCollapse "hello  world" :=
  ⟨stripSrt_conditional_idem.1 "hello  world" (by decide) (by decide),
   stripSrt_conditional_idem.2 "hello  world" (by decide) (by decide) (by decide)⟩

/-- C2 counterexample: at a concrete invocation (all options and
configuration absent) the JSON body's data array does not have 53
elements — it has 54. -/
theorem whisperData_length_cex :
    ¬(whisperData ⟨none, none, none, none, none, none, none, none, none, none⟩
        ⟨none, none⟩ "audio.wav").length = 53 := by
  decide

/-- C2 (amended): for every invocation of the remote batch call the data
array has exactly 54 elements at fixed positions, and the normalized
device string occupies the two device slots (0-based indices 45 and 50),
both carrying the same value. -/
theorem whisperData_spec (opts : WhisperOptions) (cfg : SttConfig) (up : String) :
    (whisperData opts cfg up).length = 54 ∧
    (whisperData opts cfg up)[45]? = some (GVal.s (gradioDeviceArg opts cfg)) ∧
    (whisperData opts cfg up)[50]? = some (GVal.s (gradioDeviceArg opts cfg)) :=
  ⟨rfl, rfl, rfl⟩

/-- C6 counterexample: model-name normalization is not stable on a
whitespace-only name — `normalize(" ")` is `""` (truthy input, trimmed to
empty, passed through), but `normalize("")` is `"base"`. -/
theorem normalizeWhisperModel_not_stable_cex :
    normalizeWhisperModel (some (normalizeWhisperModel (some " "))) ≠
      normalizeWhisperModel (some " ") := by
  decide

/-- C6 (amended): normalization is total, lowercases and trims;
`"MID"` maps to `"medium"`, `"large_v2"` and `"largev2"` map to
`"large-v2"`, an absent name maps to `"base"`, every other name passes
through lowercased and trimmed; and it is stable on every input whose
normalization is nonempty (only whitespace-only nonempty names break
stability). -/
theorem normalizeWhisperModel_spec :
    normalizeWhisperModel (some "MID") = "medium" ∧
    normalizeWhisperModel (some "large_v2") = "large-v2" ∧
    normalizeWhisperModel (some "largev2") = "large-v2" ∧
    normalizeWhisperModel none = "base" ∧
    (∀ s : String, ¬s = "" → ¬lowerTrim s = "mid" → ¬lowerTrim s = "large_v2" →
      ¬lowerTrim s = "largev2" → normalizeWhisperModel (some s) = lowerTrim s) ∧
    (∀ x : Option String, ¬normalizeWhisperModel x = "" →
      normalizeWhisperModel (some (normalizeWhisperModel x)) =
        normalizeWhisperModel x) := by
  refine ⟨by decide, by decide, by decide, rfl, ?_, ?_⟩
  · intro s hs h1 h2 h3
    simp only [normalizeWhisperModel, if_neg hs, if_neg h1]
    rw [if_neg (fun h => h.elim h2 h3)]
  · intro x hx
    match x with
    | none => decide
    | some s =>
      by_cases hs : s = ""
      · subst hs
        decide
      · by_cases h1 : lowerTrim s = "mid"
        · have hval : normalizeWhisperModel (some s) = "medium" := by
            simp only [normalizeWhisperModel, if_neg hs, if_pos h1]
          rw [hval]
          decide
        · by_cases h2 : lowerTrim s = "large_v2" ∨ lowerTrim s = "largev2"
          · have hval : normalizeWhisperModel (some s) = "large-v2" := by
              simp only [normalizeWhisperModel, if_neg hs, if_neg h1, if_pos h2]
            rw [hval]
            decide
          · have hval : normalizeWhisperModel (some s) = lowerTrim s := by
              simp only [normalizeWhisperModel, if_neg hs, if_neg h1, if_neg h2]
            rw [hval] at hx ⊢
            simp only [normalizeWhisperModel, if_neg hx, lowerTrim_idem s]
            rw [if_neg h1, if_neg (fun h => h.elim (fun ha => h2 (Or.inl ha))
              (fun hb => h2 (Or.inr hb)))]

/-- Witness for C6 (amended) at a concrete input. -/
theorem normalizeWhisperModel_spec_witness :
    normalizeWhisperModel (some "Tiny ") = lowerTrim "Tiny " ∧
    normalizeWhisperModel (some (normalizeWhisperModel (some "Tiny "))) =
      normalizeWhisperModel (some "Tiny ") :=
  ⟨normalizeWhisperModel_spec.2.2.2.2.1 "Tiny " (by decide) (by decide) (by decide)
      (by decide),
   normalizeWhisperModel_spec.2.2.2.2.2 (some "Tiny ") (by decide)⟩

/-- C7: on every exit path of the offline transcription call — successful
final decode, exception thrown by the final decode, and stream error — the
recognizer session is freed exactly once, and a decode or stream error is
surfaced to the caller (the promise rejects with it), not swallowed. -/
theorem vosk_session_released_once {ε : Type} (ev : VoskEvent ε) :
    (voskFinish ev).2 = 1 ∧
    (∀ e, ev = VoskEvent.streamErr e → (voskFinish ev).1 = Except.error e) ∧
    (∀ e, ev = VoskEvent.streamEnd (Except.error e) →
      (voskFinish ev).1 = Except.error e) := by
  refine ⟨?_, ?_, ?_⟩
  · rcases ev with fr | e
    · rcases fr with fr | e <;> rfl
    · rfl
  · intro e he
    subst he
    rfl
  · intro e he
    subst he
    rfl

/-- Witness for C7 at a concrete stream error. -/
theorem vosk_session_released_once_witness :
    (voskFinish (VoskEvent.streamErr "boom" : VoskEvent String)).2 = 1 ∧
    (voskFinish (VoskEvent.streamErr "boom" : VoskEvent String)).1 =
      Except.error "boom" :=
  ⟨(vosk_session_released_once (VoskEvent.streamErr "boom" : VoskEvent String)).1,
   (vosk_session_released_once (VoskEvent.streamErr "boom" : VoskEvent String)).2.1
     "boom" rfl⟩

/-- C8: when the final decode succeeds, a nonempty trimmed best-alternative
text resolves the call with that text, and an empty one resolves (does not
reject) with the no-speech sentinel, which is distinct from every text
result and from every error. -/
theorem vosk_no_speech_sentinel {ε : Type} (fr : VoskFinal) :
    (¬voskBestText fr = "" →
      (voskFinish (VoskEvent.streamEnd (Except.ok fr) : VoskEvent ε)).1 =
        Except.ok (VoskOut.text (voskBestText fr))) ∧
    (voskBestText fr = "" →
      (voskFinish (VoskEvent.streamEnd (Except.ok fr) : VoskEvent ε)).1 =
        Except.ok VoskOut.noSpeech) ∧
    (∀ s, VoskOut.noSpeech ≠ VoskOut.text s) ∧
    (∀ e : ε, (Except.ok VoskOut.noSpeech : Except ε VoskOut) ≠ Except.error e) := by
  refine ⟨?_, ?_, ?_, ?_⟩
  · intro h
    simp [voskFinish, h]
  · intro h
    simp [voskFinish, h]
  · intro s h
    exact VoskOut.noConfusion h
  · intro e h
    exact Except.noConfusion h

/-- Witness for C8 at a concrete decode result. -/
theorem vosk_no_speech_sentinel_witness :
    (voskFinish (VoskEvent.streamEnd (Except.ok ⟨[⟨some " hi "⟩]⟩) :
        VoskEvent String)).1 =
      Except.ok (VoskOut.text (voskBestText ⟨[⟨some " hi "⟩]⟩)) :=
  (vosk_no_speech_sentinel ⟨[⟨some " hi "⟩]⟩).1 (by decide)

/-- C9: in the Call step the event identifier is selected by skipping
falsy fields — the first truthy of `event_id`, `eventId`, `id` is used in
the event-poll GET; when all three are falsy (absent, empty string, 0,
null or false) the missing-event-id error is thrown and the GET is never
issued; and a present-but-falsy `event_id` field behaves exactly like an
absent one. -/
theorem eventId_first_truthy (resp : JSVal) :
    (gradioEventIdStep resp = Except.error "Gradio call returned no event id." ↔
      (truthy (getField resp "event_id") = false ∧
       truthy (getField resp "eventId") = false ∧
       truthy (getField resp "id") = false)) ∧
    (truthy (getField resp "event_id") = true →
      gradioEventIdStep resp = Except.ok (jsToString (getField resp "event_id"))) ∧
    (truthy (getField resp "event_id") = false →
      truthy (getField resp "eventId") = true →
      gradioEventIdStep resp = Except.ok (jsToString (getField resp "eventId"))) ∧
    (truthy (getField resp "event_id") = false →
      truthy (getField resp "eventId") = false →
      truthy (getField resp "id") = true →
      gradioEventIdStep resp = Except.ok (jsToString (getField resp "id"))) ∧
    (∀ (v : JSVal) (fields : List (String × JSVal)), truthy v = false →
      fields.lookup "event_id" = none →
      gradioEventIdStep (JSVal.obj (("event_id", v) :: fields)) =
        gradioEventIdStep (JSVal.obj fields)) := by
  refine ⟨?_, ?_, ?_, ?_, ?_⟩
  · unfold gradioEventIdStep selectEventId jsOr
    by_cases h1 : truthy (getField resp "event_id") <;>
      by_cases h2 : truthy (getField resp "eventId") <;>
      by_cases h3 : truthy (getField resp "id") <;>
      simp [h1, h2, h3]
  · intro h1
    unfold gradioEventIdStep selectEventId jsOr
    simp [h1]
  · intro h1 h2
    unfold gradioEventIdStep selectEventId jsOr
    simp [h1, h2]
  · intro h1 h2 h3
    unfold gradioEventIdStep selectEventId jsOr
    simp [h1, h2, h3]
  · intro v fields hv hnone
    unfold gradioEventIdStep selectEventId jsOr
    have he1 : getField (JSVal.obj (("event_id", v) :: fields)) "event_id" = v := by
      simp [getField, List.lookup]
    have he0 : getField (JSVal.obj fields) "event_id" = JSVal.undefined := by
      simp [getField, hnone]
    have he2 : getField (JSVal.obj (("event_id", v) :: fields)) "eventId" =
        getField (JSVal.obj fields) "eventId" := by
      simp [getField, List.lookup]
    have he3 : getField (JSVal.obj (("event_id", v) :: fields)) "id" =
        getField (JSVal.obj fields) "id" := by
      simp [getField, List.lookup]
    rw [he1, he0, he2, he3, hv]
    simp [truthy]

/-- Witness for C9: a present-but-empty `event_id` is skipped and the
truthy `eventId` is used for the poll. -/
theorem eventId_first_truthy_witness :
    gradioEventIdStep
        (JSVal.obj [("event_id", JSVal.str ""), ("eventId", JSVal.str "abc")]) =
      Except.ok (jsToString (getField
        (JSVal.obj [("event_id", JSVal.str ""), ("eventId", JSVal.str "abc")])
        "eventId")) :=
  (eventId_first_truthy
    (JSVal.obj [("event_id", JSVal.str ""), ("eventId", JSVal.str "abc")])).2.2.1
    rfl rfl

/-- C10: for every uploaded file, when the base name has no extension the
client appends `".wav"` to the form filename, so the MIME type inferred
from the new name is `audio/wav`; when the base name has an extension the
filename is sent unchanged and the MIME type is whatever `getMimeType`
infers from that name's extension. -/
theorem uploadName_mime_spec (b : String) (hb : ¬b = "") (hs : '/' ∉ b.data) :
    (extnameOfBase b.data = [] →
      uploadNameAndMime b = (b ++ ".wav", "audio/wav")) ∧
    (¬extnameOfBase b.data = [] →
      (uploadNameAndMime b).1 = b ∧ (uploadNameAndMime b).2 = getMimeType b) := by
  have hbn : ¬b.data = [] := fun h => hb (congrArg String.mk h)
  constructor
  · intro hext
    unfold uploadNameAndMime
    rw [hext]
    simp only [lowerChars, List.map_nil, if_true]
    refine Prod.ext rfl ?_
    show getMimeType (b ++ ".wav") = "audio/wav"
    unfold getMimeType
    rw [show (b ++ ".wav").data = b.data ++ ".wav".data from rfl]
    rw [basenameChars_eq_self ?hsl, extname_append_wav hbn]
    case hsl =>
      intro hm
      rcases List.mem_append.mp hm with h1 | h1
      · exact hs h1
      · simp at h1
    rfl
  · intro hext
    unfold uploadNameAndMime
    have hne : ¬(⟨lowerChars (extnameOfBase b.data)⟩ : String) = "" := by
      intro he
      apply hext
      have hd := congrArg String.data he
      exact List.map_eq_nil_iff.mp hd
    dsimp only
    rw [if_neg hne]
    exact ⟨rfl, rfl⟩

/-- Witness for C10: an extensionless base name gets `.wav` appended and is
sent as `audio/wav`. -/
theorem uploadName_mime_spec_witness :
    uploadNameAndMime "speech" = ("speech" ++ ".wav", "audio/wav") :=
  (uploadName_mime_spec "speech" (by decide) (by decide)).1 (by decide)

/-- C5: `extractText` is total (a Lean function; it never throws) and
follows the fixed precedence over result shapes — array whose first
element is an object with a string `text` field; array of strings; a
`data` array at one or two nesting levels; plain string (read from the
filesystem when it names an existing file, else used verbatim); `text`;
`transcription`; `data.text`; `outputPath` naming an existing file — the
first matching shape wins, the embedded text is returned trimmed, and
every unmatched shape yields the empty string. -/
theorem extractWhisperText_shapes (fsys : String → Option String) :
    (∀ (fields : List (String × JSVal)) (rest : List JSVal) (t : String),
      fields.lookup "text" = some (JSVal.str t) →
      extractWhisperText fsys (JSVal.arr (JSVal.obj fields :: rest)) = jsTrim t) ∧
    (∀ (s : String) (rest : List JSVal),
      extractWhisperText fsys (JSVal.arr (JSVal.str s :: rest)) = jsTrim s) ∧
    (∀ (fields : List (String × JSVal)) (t : String) (rest : List JSVal),
      fields.lookup "data" = some (JSVal.arr (JSVal.str t :: rest)) →
      extractWhisperText fsys (JSVal.obj fields) = jsTrim t) ∧
    (∀ (fields dfields : List (String × JSVal)) (t : String) (rest : List JSVal),
      fields.lookup "data" = some (JSVal.obj dfields) →
      dfields.lookup "data" = some (JSVal.arr (JSVal.str t :: rest)) →
      extractWhisperText fsys (JSVal.obj fields) = jsTrim t) ∧
    (∀ s : String, ¬s = "" → fsys s = none →
      extractWhisperText fsys (JSVal.str s) = jsTrim s) ∧
    (∀ (s c : String), ¬s = "" → fsys s = some c →
      extractWhisperText fsys (JSVal.str s) = jsTrim c) ∧
    (∀ (fields : List (String × JSVal)) (t : String),
      fields.lookup "data" = none →
      fields.lookup "text" = some (JSVal.str t) →
      extractWhisperText fsys (JSVal.obj fields) = jsTrim t) ∧
    (∀ (fields : List (String × JSVal)) (t : String),
      fields.lookup "data" = none → fields.lookup "text" = none →
      fields.lookup "transcription" = some (JSVal.str t) →
      extractWhisperText fsys (JSVal.obj fields) = jsTrim t) ∧
    (∀ (fields dfields : List (String × JSVal)) (t : String),
      fields.lookup "data" = some (JSVal.obj dfields) →
      dfields.lookup "data" = none →
      fields.lookup "text" = none → fields.lookup "transcription" = none →
      dfields.lookup "text" = some (JSVal.str t) →
      extractWhisperText fsys (JSVal.obj fields) = jsTrim t) ∧
    (∀ (fields : List (String × JSVal)) (p c : String),
      fields.lookup "data" = none →
      fields.lookup "text" = none → fields.lookup "transcription" = none →
      fields.lookup "outputPath" = some (JSVal.str p) →
      fsys p = some c →
      extractWhisperText fsys (JSVal.obj fields) = jsTrim c) ∧
    (∀ fields : List (String × JSVal),
      fields.lookup "data" = none →
      fields.lookup "text" = none → fields.lookup "transcription" = none →
      fields.lookup "outputPath" = none →
      extractWhisperText fsys (JSVal.obj fields) = "") ∧
    (extractWhisperText fsys JSVal.undefined = "" ∧
     extractWhisperText fsys JSVal.jsNull = "" ∧
     extractWhisperText fsys (JSVal.str "") = "" ∧
     extractWhisperText fsys (JSVal.num 5) = "" ∧
     extractWhisperText fsys (JSVal.bool true) = "") := by
  refine ⟨?_, ?_, ?_, ?_, ?_, ?_, ?_, ?_, ?_, ?_, ?_, ?_⟩
  · intro fields rest t h
    simp [extractWhisperText, truthy, isArray, isString, isObjectType, getField,
      jsIndex, nullishD, strVal, h]
  · intro s rest
    simp [extractWhisperText, truthy, isArray, isString, isObjectType, getField,
      jsIndex, nullishD, strVal, jsToString]
  · intro fields t rest h
    simp [extractWhisperText, truthy, isArray, isString, isObjectType, getField,
      jsIndex, nullishD, strVal, jsToString, h]
  · intro fields dfields t rest h1 h2
    simp [extractWhisperText, truthy, isArray, isString, isObjectType, getField,
      jsIndex, nullishD, strVal, jsToString, h1, h2]
  · intro s hs hfs
    have hsb : (s == "") = false := beq_eq_false_iff_ne.mpr hs
    simp [extractWhisperText, truthy, isArray, isString, getField, strVal, hsb, hfs]
  · intro s c hs hfs
    have hsb : (s == "") = false := beq_eq_false_iff_ne.mpr hs
    simp [extractWhisperText, truthy, isArray, isString, getField, strVal, hsb, hfs]
  · intro fields t h1 h2
    simp [extractWhisperText, truthy, isArray, isString, getField, strVal, h1, h2]
  · intro fields t h1 h2 h3
    simp [extractWhisperText, truthy, isArray, isString, getField, strVal, h1, h2, h3]
  · intro fields dfields t h1 h2 h3 h4 h5
    simp [extractWhisperText, truthy, isArray, isString, isObjectType, getField,
      strVal, h1, h2, h3, h4, h5]
  · intro fields p c h1 h2 h3 h4 h5
    simp [extractWhisperText, truthy, isArray, isString, getField, strVal,
      h1, h2, h3, h4, h5]
  · intro fields h1 h2 h3 h4
    simp [extractWhisperText, truthy, isArray, isString, getField, strVal,
      h1, h2, h3, h4]
  · exact ⟨rfl, rfl, rfl, rfl, rfl⟩

/-- Witness for C5 at a concrete array-of-objects result. -/
theorem extractWhisperText_shapes_witness :
    extractWhisperText (fun _ => none)
        (JSVal.arr [JSVal.obj [("text", JSVal.str " hi ")]]) = jsTrim " hi " :=
  (extractWhisperText_shapes (fun _ => none)).1 [("text", JSVal.str " hi ")] []
    " hi " rfl

/-- C4: in the event-poll step only `data:` lines are kept; the step fails
with an error exactly when the body has no `data:` line; otherwise the
payload is the last such line with the prefix stripped and trimmed,
JSON-parsed when possible (raw string otherwise); and on the concrete body
`data: [1,["hi"]]\ndata: [2,["final"]]\n` the result is the parse of the
second line — last `data:` line wins. -/
theorem eventPayload_last_data_line :
    (∀ body : String,
      (∃ e, processEventBody body = Except.error e) ↔ eventDataLines body = []) ∧
    (∀ (body : String) (h : ¬eventDataLines body = []),
      processEventBody body =
        Except.ok (parsePayload
          ⟨trimChars (((eventDataLines body).getLast h).drop 5)⟩)) ∧
    processEventBody "data: [1,[\"hi\"]]\ndata: [2,[\"final\"]]\n" =
      Except.ok (EventPayload.json
        (Json.arr [Json.num 2, Json.arr [Json.str "final"]])) := by
  refine ⟨?_, ?_, rfl⟩
  · intro body
    unfold processEventBody
    cases h : (eventDataLines body).getLast? with
    | none =>
      constructor
      · intro _
        exact List.getLast?_eq_none_iff.mp h
      · intro _
        exact ⟨_, rfl⟩
    | some last =>
      constructor
      · rintro ⟨e, he⟩
        exact absurd he (by simp)
      · intro he
        rw [he] at h
        simp at h
  · intro body h
    unfold processEventBody
    rw [List.getLast?_eq_getLast _ h]

/-- Witness for C4 at a concrete two-line body. -/
theorem eventPayload_last_data_line_witness :
    processEventBody "data: alpha\ndata: beta" =
      Except.ok (parsePayload
        ⟨trimChars (((eventDataLines "data: alpha\ndata: beta").getLast
          (by decide)).drop 5)⟩) :=
  eventPayload_last_data_line.2.1 "data: alpha\ndata: beta" (by decide)

end ProxyAPI
